import Mathlib

/-!
Verification of the data-access layer of the `nextjs-dashboard` repository.

The development shallowly embeds `app/lib/data.ts` (lazy client holder
`getSql` and the eight defensive query functions), `app/lib/database.ts`
(configuration resolver `getDatabaseConfig` and `checkDatabaseHealth`),
and the health route handler `GET`.

Modelling conventions:
* A process environment is a record of optional environment variables;
  JavaScript truthiness (absent and empty string are falsy) is made explicit
  by `envTruthy`.
* The external database is a record of typed tables; a query either runs
  against an `up` database or the connection is `down`, in which case the
  `catch` branch of the source fires.  Totality of each Lean function is the
  embedding of "no database error propagates to the caller".
* Postgres `ILIKE` is embedded by `likeMatch`, including `%`/`_` wildcards
  and backslash escapes, with case-insensitive character comparison
  (Postgres lowers both operands; lowering fixes the three special
  characters, so comparing lowered characters against a raw pattern is
  equivalent).
* SQL `ORDER BY` is embedded with `List.insertionSort`; Postgres leaves the
  relative order of ties unspecified, and the embedding picks one ordering.
-/

namespace Dashboard

/-- JavaScript truthiness of an optional environment-variable string:
an absent variable and the empty string are falsy. -/
def envTruthy : Option String → Bool
  | none => false
  | some s => !(s == "")

/-- The string value of an environment variable (empty when absent). -/
def envStr : Option String → String
  | none => ""
  | some s => s

/-- The process environment variables read by the repository. -/
structure Env where
  POSTGRES_URL : Option String := none
  DATABASE_URL : Option String := none
  POSTGRES_SSL_MODE : Option String := none
  NODE_ENV : Option String := none
  deriving DecidableEq

/-- The `ssl` option passed to the postgres client: either a mode string or
`false` (from `sslMode === "disable"`). -/
inductive SslSetting where
  | mode (s : String)
  | off
  deriving DecidableEq

/-- The configuration record built by `getDatabaseConfig` in
`app/lib/database.ts`: url plus the spread pool options. -/
structure DbConfig where
  url : String
  ssl : SslSetting
  max : Nat
  idle_timeout : Nat
  connect_timeout : Nat
  prepare : Bool
  deriving DecidableEq

/-- `getDatabaseConfig` from `app/lib/database.ts` (lines 13-45): takes
`POSTGRES_URL || DATABASE_URL` (JS `||`, so empty strings fall through),
throws (`Except.error`) when neither is truthy, and otherwise derives the
SSL mode and pool options from `POSTGRES_SSL_MODE` and `NODE_ENV`. -/
def getDatabaseConfig (env : Env) : Except String DbConfig :=
  let postgresUrl : Option String :=
    if envTruthy env.POSTGRES_URL then env.POSTGRES_URL else env.DATABASE_URL
  if envTruthy postgresUrl = false then
    Except.error
      "Missing database URL. Please set POSTGRES_URL or DATABASE_URL environment variable."
  else
    let sslMode : String :=
      if envTruthy env.POSTGRES_SSL_MODE then envStr env.POSTGRES_SSL_MODE
      else if env.NODE_ENV == some "production" then "require" else "prefer"
    Except.ok
      { url := envStr postgresUrl
        ssl :=
          if sslMode == "require" then SslSetting.mode "require"
          else if sslMode == "disable" then SslSetting.off
          else SslSetting.mode sslMode
        max := if env.NODE_ENV == some "production" then 20 else 10
        idle_timeout := 20
        connect_timeout := 10
        prepare := false }

/-- A constructed postgres client, as built by `postgres(url, { ssl })` in
`app/lib/data.ts` line 22. -/
structure Client where
  url : String
  ssl : String
  deriving DecidableEq

/-- The observable result of one call of `getSql`: the returned client (or
`none`), the new value of the module-level `sqlClient` variable, and whether
this call constructed a fresh client. -/
structure GetSqlRes where
  client : Option Client
  state : Option Client
  constructed : Bool
  deriving DecidableEq

/-- `getSql` from `app/lib/data.ts` (lines 18-25): returns `null` when
`process.env.POSTGRES_URL` is falsy, otherwise returns the memoized
`sqlClient`, constructing it on first use with `ssl: "require"`.  The
module-level mutable `sqlClient` is passed and returned explicitly. -/
def getSql (env : Env) (sqlClient : Option Client) : GetSqlRes :=
  if envTruthy env.POSTGRES_URL = false then
    { client := none, state := sqlClient, constructed := false }
  else
    match sqlClient with
    | some c => { client := some c, state := some c, constructed := false }
    | none =>
      let c : Client := { url := envStr env.POSTGRES_URL, ssl := "require" }
      { client := some c, state := some c, constructed := true }

/-- A trace of repeated `getSql` calls threading the module-level
`sqlClient`: the list of returned clients, the final state, and the total
number of client constructions. -/
structure TraceRes where
  results : List (Option Client)
  finalState : Option Client
  constructions : Nat
  deriving DecidableEq

/-- Runs `getSql` once per environment snapshot in `envs`, threading the
module-level `sqlClient` state through the calls. -/
def getSqlTrace : List Env → Option Client → TraceRes
  | [], st => { results := [], finalState := st, constructions := 0 }
  | e :: es, st =>
    let r := getSql e st
    let t := getSqlTrace es r.state
    { results := r.client :: t.results
      finalState := t.finalState
      constructions := (if r.constructed then 1 else 0) + t.constructions }

/-! ### The database tables -/

/-- A row of the `invoices` table (`amount` is stored in integer cents). -/
structure Invoice where
  id : String
  customer_id : String
  amount : Int
  status : String
  date : String
  deriving DecidableEq

/-- A row of the `customers` table. -/
structure Customer where
  id : String
  name : String
  email : String
  image_url : String
  deriving DecidableEq

/-- A row of the `revenue` table. -/
structure Revenue where
  month : String
  revenue : Int
  deriving DecidableEq

/-- The external relational database the queries run against. -/
structure Database where
  invoices : List Invoice
  customers : List Customer
  revenue : List Revenue
  deriving DecidableEq

/-- The state of the external database from the point of view of one
request: either reachable with contents `db`, or unreachable (every query
rejects, landing in the source's `catch` branch). -/
inductive DbWorld where
  | down
  | up (db : Database)
  deriving DecidableEq

/-! ### ILIKE -/

/-- Lower-casing used by Postgres `ILIKE` comparisons (ASCII, as in
`Char.toLower`). -/
def lowerChar (c : Char) : Char := c.toLower

/-- All suffixes of a character list, longest first (the final element is
`[]`). -/
def suffixList : List Char → List (List Char)
  | [] => [[]]
  | c :: cs => (c :: cs) :: suffixList cs

/-- SQL `LIKE` pattern matching with case-insensitive comparison, i.e.
Postgres `ILIKE`: `%` matches any sequence, `_` any single character, and a
backslash escapes the following pattern character.  A pattern ending in a
dangling backslash matches nothing (Postgres raises an error for such a
pattern; either way no row is selected). -/
def likeMatch : List Char → List Char → Bool
  | [], s => s.isEmpty
  | p :: ps, s =>
    if p = '%' then
      (suffixList s).any (fun t => likeMatch ps t)
    else if p = '_' then
      match s with
      | [] => false
      | _ :: cs => likeMatch ps cs
    else if p = '\\' then
      match ps with
      | [] => false
      | e :: ps2 =>
        match s with
        | [] => false
        | c :: cs => (lowerChar e == lowerChar c) && likeMatch ps2 cs
    else
      match s with
      | [] => false
      | c :: cs => (lowerChar p == lowerChar c) && likeMatch ps cs

/-- `s ILIKE pat` on strings. -/
def ilike (s pat : String) : Bool := likeMatch pat.data s.data

/-- Case-insensitive prefix test on character lists. -/
def ciStartsWith : List Char → List Char → Bool
  | [], _ => true
  | _ :: _, [] => false
  | p :: ps, c :: cs => (lowerChar p == lowerChar c) && ciStartsWith ps cs

/-- Case-insensitive substring test on character lists. -/
def ciHasSub (q : List Char) : List Char → Bool
  | [] => ciStartsWith q []
  | c :: cs => ciStartsWith q (c :: cs) || ciHasSub q cs

/-- Case-insensitive substring test on strings: the spec's reading of the
search filter ("the query is a case-insensitive substring of the field"). -/
def ciSubstring (q s : String) : Bool := ciHasSub q.data s.data

/-- A query-string character that `ILIKE` treats literally (not `%`, `_`,
or the escape backslash). -/
def plainChar (c : Char) : Bool := !(c == '%' || c == '_' || c == '\\')

/-- A query string without `ILIKE` wildcard or escape characters. -/
def plainQuery (q : String) : Bool := q.data.all plainChar

/-! ### The query functions of `app/lib/data.ts` -/

/-- Modelled from the spec: `formatCurrency` from `app/lib/utils.ts`, which
is not under `src/`.  Per the spec it converts an integer cent amount to a
decimal currency string (formatted-zero currency for 0). -/
def formatCurrency (cents : Int) : String :=
  let d : Int := cents / 100
  let r : Nat := (cents % 100).natAbs
  "$" ++ toString d ++ "." ++ (if r < 10 then "0" ++ toString r else toString r)

/-- Safe fallback for `fetchRevenue` (`app/lib/data.ts` line 30). -/
def SAFE_EMPTY_REVENUE : List Revenue := []

/-- The card summary returned by `fetchCardData`. -/
structure CardData where
  numberOfCustomers : Nat
  numberOfInvoices : Nat
  totalPaidInvoices : String
  totalPendingInvoices : String
  deriving DecidableEq

/-- Safe fallback for `fetchCardData` (`app/lib/data.ts` lines 32-37). -/
def SAFE_CARD_DATA : CardData :=
  { numberOfCustomers := 0
    numberOfInvoices := 0
    totalPaidInvoices := formatCurrency 0
    totalPendingInvoices := formatCurrency 0 }

/-- `invoices JOIN customers ON invoices.customer_id = customers.id`,
pairing each invoice with the matching customers. -/
def joinRows (customers : List Customer) : List Invoice → List (Invoice × Customer)
  | [] => []
  | inv :: rest =>
    ((customers.filter (fun c => c.id == inv.customer_id)).map (fun c => (inv, c)))
      ++ joinRows customers rest

/-- The joined invoice/customer rows of a database. -/
def joinedInvoices (db : Database) : List (Invoice × Customer) :=
  joinRows db.customers db.invoices

/-- Row well-formedness used to reason about the inner join: every invoice
references exactly one customer row (referential integrity plus primary-key
uniqueness of `customers.id`). -/
def dbWF (db : Database) : Bool :=
  db.invoices.all
    (fun inv => (db.customers.filter (fun c => c.id == inv.customer_id)).length == 1)

/-- The `WHERE` clause shared verbatim by `fetchFilteredInvoices` and
`fetchInvoicesPages` (`app/lib/data.ts` lines 159-164 and 189-194): the
query, wrapped in `%`, is `ILIKE`-matched against customer name, customer
email, the invoice amount and date cast to text, and the invoice status. -/
def invoiceRowMatches (query : String) (inv : Invoice) (c : Customer) : Bool :=
  ilike c.name ("%" ++ query ++ "%") ||
  ilike c.email ("%" ++ query ++ "%") ||
  ilike (toString inv.amount) ("%" ++ query ++ "%") ||
  ilike inv.date ("%" ++ query ++ "%") ||
  ilike inv.status ("%" ++ query ++ "%")

/-- The spec's reading of the same filter: the query is a case-insensitive
substring of at least one of the five fields. -/
def specInvoiceRowMatches (query : String) (inv : Invoice) (c : Customer) : Bool :=
  ciSubstring query c.name ||
  ciSubstring query c.email ||
  ciSubstring query (toString inv.amount) ||
  ciSubstring query inv.date ||
  ciSubstring query inv.status

/-- `ORDER BY invoices.date DESC` on joined rows. -/
def dateDesc (a b : Invoice × Customer) : Prop := b.1.date ≤ a.1.date

instance : DecidableRel dateDesc :=
  fun a b => inferInstanceAs (Decidable (b.1.date ≤ a.1.date))

instance : IsTotal (Invoice × Customer) dateDesc :=
  ⟨fun a b => le_total b.1.date a.1.date⟩

instance : IsTrans (Invoice × Customer) dateDesc :=
  ⟨fun _ _ _ hab hbc => le_trans hbc hab⟩

/-- `ORDER BY name ASC` on customers. -/
def nameAsc (a b : Customer) : Prop := a.name ≤ b.name

instance : DecidableRel nameAsc :=
  fun a b => inferInstanceAs (Decidable (a.name ≤ b.name))

instance : IsTotal Customer nameAsc := ⟨fun a b => le_total a.name b.name⟩

instance : IsTrans Customer nameAsc := ⟨fun _ _ _ hab hbc => le_trans hab hbc⟩

/-- Per-page row limit (`ITEMS_PER_PAGE`, `app/lib/data.ts` line 132). -/
def ITEMS_PER_PAGE : Nat := 6

/-- `fetchRevenue` (`app/lib/data.ts` lines 43-59): `SELECT * FROM revenue`
with the defensive fallback.  The source's `data ?? SAFE_EMPTY_REVENUE`
guards a nullish result set, which the typed embedding has no value for. -/
def fetchRevenue (env : Env) (st : Option Client) (w : DbWorld) : List Revenue :=
  match (getSql env st).client with
  | none => SAFE_EMPTY_REVENUE
  | some _ =>
    match w with
    | DbWorld.down => SAFE_EMPTY_REVENUE
    | DbWorld.up db => db.revenue

/-- Output row shape of `fetchLatestInvoices`: the selected columns with
the amount replaced by its currency-formatted string. -/
structure LatestInvoice where
  amount : String
  name : String
  image_url : String
  email : String
  id : String
  deriving DecidableEq

/-- The five most recent joined invoice rows (`ORDER BY invoices.date DESC
LIMIT 5`). -/
def latestInvoiceRows (db : Database) : List (Invoice × Customer) :=
  (List.insertionSort dateDesc (joinedInvoices db)).take 5

/-- The row mapping of `fetchLatestInvoices` (`app/lib/data.ts` lines
79-82): spread the row and overwrite `amount` with `formatCurrency`. -/
def latestShape (p : Invoice × Customer) : LatestInvoice :=
  { amount := formatCurrency p.1.amount
    name := p.2.name
    image_url := p.2.image_url
    email := p.2.email
    id := p.1.id }

/-- `fetchLatestInvoices` (`app/lib/data.ts` lines 61-88).  The source's
no-client and error fallbacks both return the empty list (typed
`SAFE_EMPTY_INVOICES = []` in the source). -/
def fetchLatestInvoices (env : Env) (st : Option Client) (w : DbWorld) : List LatestInvoice :=
  match (getSql env st).client with
  | none => []
  | some _ =>
    match w with
    | DbWorld.down => []
    | DbWorld.up db => (latestInvoiceRows db).map latestShape

/-- `SUM(CASE WHEN status = s THEN amount ELSE 0 END)` over invoice rows
(an empty sum is `NULL` in SQL, turned to `0` by the source's `?? 0`). -/
def sumStatus (s : String) (invs : List Invoice) : Int :=
  invs.foldr (fun i acc => (if i.status == s then i.amount else 0) + acc) 0

/-- `fetchCardData` (`app/lib/data.ts` lines 90-130): the three aggregate
queries combined into the card summary. -/
def fetchCardData (env : Env) (st : Option Client) (w : DbWorld) : CardData :=
  match (getSql env st).client with
  | none => SAFE_CARD_DATA
  | some _ =>
    match w with
    | DbWorld.down => SAFE_CARD_DATA
    | DbWorld.up db =>
      { numberOfCustomers := db.customers.length
        numberOfInvoices := db.invoices.length
        totalPaidInvoices := formatCurrency (sumStatus "paid" db.invoices)
        totalPendingInvoices := formatCurrency (sumStatus "pending" db.invoices) }

/-- Output row shape of `fetchFilteredInvoices` (the selected columns). -/
structure InvoicesTableRow where
  id : String
  amount : Int
  date : String
  status : String
  name : String
  email : String
  image_url : String
  deriving DecidableEq

/-- The filtered, date-descending invoice rows that
`fetchFilteredInvoices` paginates (`WHERE` then `ORDER BY`). -/
def filteredInvoiceRows (db : Database) (query : String) : List (Invoice × Customer) :=
  List.insertionSort dateDesc
    ((joinedInvoices db).filter (fun p => invoiceRowMatches query p.1 p.2))

/-- Column selection of `fetchFilteredInvoices`. -/
def invoiceTableShape (p : Invoice × Customer) : InvoicesTableRow :=
  { id := p.1.id
    amount := p.1.amount
    date := p.1.date
    status := p.1.status
    name := p.2.name
    email := p.2.email
    image_url := p.2.image_url }

/-- `fetchFilteredInvoices` (`app/lib/data.ts` lines 133-174): `LIMIT 6
OFFSET (currentPage-1)*6` over the filtered, sorted rows.  A negative
offset makes Postgres reject the query, which the `catch` turns into the
empty fallback. -/
def fetchFilteredInvoices (env : Env) (st : Option Client) (query : String)
    (currentPage : Int) (w : DbWorld) : List InvoicesTableRow :=
  match (getSql env st).client with
  | none => []
  | some _ =>
    let offset : Int := (currentPage - 1) * (ITEMS_PER_PAGE : Int)
    match w with
    | DbWorld.down => []
    | DbWorld.up db =>
      if offset < 0 then []
      else
        (((filteredInvoiceRows db query).drop offset.toNat).take ITEMS_PER_PAGE).map
          invoiceTableShape

/-- The number of joined invoice rows matching the search query (the
`SELECT COUNT(*)` of `fetchInvoicesPages`). -/
def invoicesMatchCount (db : Database) (query : String) : Nat :=
  ((joinedInvoices db).filter (fun p => invoiceRowMatches query p.1 p.2)).length

/-- `fetchInvoicesPages` (`app/lib/data.ts` lines 176-205):
`Math.ceil(count / ITEMS_PER_PAGE)` over the same `WHERE` clause, with `0`
as the no-client and error fallback. -/
def fetchInvoicesPages (env : Env) (st : Option Client) (query : String) (w : DbWorld) : Int :=
  match (getSql env st).client with
  | none => 0
  | some _ =>
    match w with
    | DbWorld.down => 0
    | DbWorld.up db =>
      Int.ceil ((invoicesMatchCount db query : ℚ) / (ITEMS_PER_PAGE : ℚ))

/-- Output row shape of `fetchInvoiceById`: amount converted from cents to
decimal currency units. -/
structure InvoiceForm where
  id : String
  customer_id : String
  amount : ℚ
  status : String
  deriving DecidableEq

/-- `fetchInvoiceById` (`app/lib/data.ts` lines 207-238): select the rows
with the given id, divide the amount by 100, and return the first row
(`invoice[0]`, i.e. `undefined`/`none` when no row matches). -/
def fetchInvoiceById (env : Env) (st : Option Client) (id : String) (w : DbWorld) :
    Option InvoiceForm :=
  match (getSql env st).client with
  | none => none
  | some _ =>
    match w with
    | DbWorld.down => none
    | DbWorld.up db =>
      ((db.invoices.filter (fun i => i.id == id)).map
        (fun i =>
          ({ id := i.id
             customer_id := i.customer_id
             amount := (i.amount : ℚ) / 100
             status := i.status } : InvoiceForm))).head?

/-- Output row shape of `fetchCustomers`. -/
structure CustomerField where
  id : String
  name : String
  deriving DecidableEq

/-- `fetchCustomers` (`app/lib/data.ts` lines 240-263): id and name of all
customers, `ORDER BY name ASC`. -/
def fetchCustomers (env : Env) (st : Option Client) (w : DbWorld) : List CustomerField :=
  match (getSql env st).client with
  | none => []
  | some _ =>
    match w with
    | DbWorld.down => []
    | DbWorld.up db =>
      (List.insertionSort nameAsc db.customers).map
        (fun c => { id := c.id, name := c.name })

/-- Output row shape of `fetchFilteredCustomers` (aggregated totals already
currency-formatted). -/
structure CustomersTableRow where
  id : String
  name : String
  email : String
  image_url : String
  total_invoices : Nat
  total_pending : String
  total_paid : String
  deriving DecidableEq

/-- `fetchFilteredCustomers` (`app/lib/data.ts` lines 265-304): filter
customers by name/email `ILIKE`, aggregate each customer's invoices (the
`LEFT JOIN` with `GROUP BY customers.id`), order by name, and
currency-format the pending/paid totals. -/
def fetchFilteredCustomers (env : Env) (st : Option Client) (query : String)
    (w : DbWorld) : List CustomersTableRow :=
  match (getSql env st).client with
  | none => []
  | some _ =>
    match w with
    | DbWorld.down => []
    | DbWorld.up db =>
      let filtered := db.customers.filter
        (fun c => ilike c.name ("%" ++ query ++ "%") || ilike c.email ("%" ++ query ++ "%"))
      (List.insertionSort nameAsc filtered).map
        (fun c =>
          let invs := db.invoices.filter (fun i => i.customer_id == c.id)
          { id := c.id
            name := c.name
            email := c.email
            image_url := c.image_url
            total_invoices := invs.length
            total_pending := formatCurrency (sumStatus "pending" invs)
            total_paid := formatCurrency (sumStatus "paid" invs) })

/-! ### Health check -/

/-- The outcome of the liveness query `SELECT 1` issued by
`checkDatabaseHealth`. -/
inductive LivenessOutcome where
  | ok
  | err (msg : String)
  deriving DecidableEq

/-- `checkDatabaseHealth` from `app/lib/database.ts` (lines 68-76): `true`
when the liveness query succeeds, `false` on any error (the `catch` branch
logs and returns `false`); it is total, never rethrowing. -/
def checkDatabaseHealth : LivenessOutcome → Bool
  | LivenessOutcome.ok => true
  | LivenessOutcome.err _ => false

/-- The JSON body plus HTTP status produced by the health route. -/
structure HealthResponse where
  httpStatus : Nat
  status : String
  message : String
  timestamp : String
  database : Option String := none
  errMsg : Option String := none
  deriving DecidableEq

/-- The health route handler `GET` (health route, lines 308-341 of the
concatenated source): `now` embeds `new Date().toISOString()`, and the
`Except` argument is the outcome of awaiting `checkDatabaseHealth()` —
`error` when that call itself threw, which lands in the handler's own
`catch` (HTTP 500). -/
def GET (now : String) (health : Except String Bool) : HealthResponse :=
  match health with
  | Except.ok isDatabaseHealthy =>
    if !isDatabaseHealthy then
      { httpStatus := 503
        status := "error"
        message := "Database connection failed"
        timestamp := now }
    else
      { httpStatus := 200
        status := "healthy"
        message := "All systems operational"
        timestamp := now
        database := some "connected" }
  | Except.error e =>
    { httpStatus := 500
      status := "error"
      message := "Health check failed"
      timestamp := now
      errMsg := some e }

/-! ### Helper lemmas -/

/-- When `POSTGRES_URL` is truthy, `getSql` returns a client: the memoized
one if present, else a freshly constructed one. -/
theorem getSql_client_some (env : Env) (st : Option Client)
    (h : envTruthy env.POSTGRES_URL = true) :
    (getSql env st).client =
      some (st.getD { url := envStr env.POSTGRES_URL, ssl := "require" }) := by
  cases st <;> simp [getSql, h]

/-- The full string is one of its own suffixes. -/
theorem self_mem_suffixList (s : List Char) : s ∈ suffixList s := by
  cases s <;> simp [suffixList]

/-- The empty string is a suffix of every string. -/
theorem nil_mem_suffixList (s : List Char) : [] ∈ suffixList s := by
  induction s <;> simp [suffixList, *]

/-- `any` respects pointwise equal predicates. -/
theorem any_ext {α : Type} (f g : α → Bool) (l : List α) (h : ∀ x, f x = g x) :
    l.any f = l.any g := by
  induction l with
  | nil => rfl
  | cons a as ih => simp [List.any, h a, ih]

/-- Unfolding equation of `likeMatch` for a non-empty pattern. -/
theorem likeMatch_cons_eq (p : Char) (ps s : List Char) :
    likeMatch (p :: ps) s =
      if p = '%' then (suffixList s).any (fun t => likeMatch ps t)
      else if p = '_' then
        (match s with | [] => false | _ :: cs => likeMatch ps cs)
      else if p = '\\' then
        (match ps with
         | [] => false
         | e :: ps2 =>
           match s with
           | [] => false
           | c :: cs => (lowerChar e == lowerChar c) && likeMatch ps2 cs)
      else
        (match s with
         | [] => false
         | c :: cs => (lowerChar p == lowerChar c) && likeMatch ps cs) := by
  rw [likeMatch.eq_def]

/-- A leading `%` tries the rest of the pattern on every suffix. -/
theorem likeMatch_cons_pct (ps s : List Char) :
    likeMatch ('%' :: ps) s = (suffixList s).any (fun t => likeMatch ps t) := by
  rw [likeMatch_cons_eq]; simp

/-- A literal pattern character never matches the empty string. -/
theorem likeMatch_plain_nil (a : Char) (ps : List Char)
    (h1 : ¬a = '%') (h2 : ¬a = '_') (h3 : ¬a = '\\') :
    likeMatch (a :: ps) [] = false := by
  rw [likeMatch_cons_eq, if_neg h1, if_neg h2, if_neg h3]

/-- A literal pattern character matches case-insensitively and the rest of
the pattern continues on the rest of the string. -/
theorem likeMatch_plain_cons (a : Char) (ps : List Char) (c : Char) (cs : List Char)
    (h1 : ¬a = '%') (h2 : ¬a = '_') (h3 : ¬a = '\\') :
    likeMatch (a :: ps) (c :: cs) = ((lowerChar a == lowerChar c) && likeMatch ps cs) := by
  rw [likeMatch_cons_eq, if_neg h1, if_neg h2, if_neg h3]

/-- The pattern `%` matches every string. -/
theorem likeMatch_pct (s : List Char) : likeMatch ['%'] s = true := by
  rw [likeMatch_cons_pct]
  exact List.any_eq_true.mpr ⟨[], nil_mem_suffixList s, by simp [likeMatch]⟩

/-- A plain (wildcard-free) pattern followed by a trailing `%` matches
exactly the strings it is a case-insensitive prefix of. -/
theorem likeMatch_plain_pct (q : List Char) (hq : q.all plainChar = true) :
    ∀ t, likeMatch (q ++ ['%']) t = ciStartsWith q t := by
  induction q with
  | nil => intro t; simp [ciStartsWith, likeMatch_pct]
  | cons a as ih =>
    intro t
    rw [List.all_cons, Bool.and_eq_true] at hq
    have ha := hq.1
    simp only [plainChar, Bool.not_eq_true', Bool.or_eq_false_iff, beq_eq_false_iff_ne,
      ne_eq] at ha
    obtain ⟨⟨ha1, ha2⟩, ha3⟩ := ha
    cases t with
    | nil =>
      rw [List.cons_append, likeMatch_plain_nil a _ ha1 ha2 ha3]
      rfl
    | cons c cs =>
      rw [List.cons_append, likeMatch_plain_cons a _ c cs ha1 ha2 ha3, ih hq.2 cs]
      rfl

/-- Checking a case-insensitive prefix on every suffix is the
case-insensitive substring test. -/
theorem suffixList_any_ciStartsWith (q : List Char) :
    ∀ s, (suffixList s).any (fun t => ciStartsWith q t) = ciHasSub q s := by
  intro s
  induction s with
  | nil => simp [suffixList, ciHasSub]
  | cons c cs ih => simp [suffixList, ciHasSub, List.any, ih]

/-- For a plain query `q`, the `ILIKE` pattern `%q%` selects exactly the
case-insensitive substring matches. -/
theorem likeMatch_pct_plain_pct (q : List Char) (hq : q.all plainChar = true)
    (s : List Char) : likeMatch ('%' :: (q ++ ['%'])) s = ciHasSub q s := by
  rw [likeMatch_cons_pct]
  rw [any_ext _ (fun t => ciStartsWith q t) _ (fun t => likeMatch_plain_pct q hq t)]
  exact suffixList_any_ciStartsWith q s

/-- String-level version of `likeMatch_pct_plain_pct` for the source's
`field ILIKE '%' || query || '%'` shape. -/
theorem ilike_pct_wrap (s q : String) (hq : plainQuery q = true) :
    ilike s ("%" ++ q ++ "%") = ciSubstring q s := by
  have hdata : ("%" ++ q ++ "%").data = '%' :: (q.data ++ ['%']) := by
    simp [String.data_append]
  rw [ilike, hdata, ciSubstring, likeMatch_pct_plain_pct q.data hq]

/-- The empty query is a case-insensitive substring of everything. -/
theorem ciHasSub_nil (s : List Char) : ciHasSub [] s = true := by
  cases s <;> simp [ciHasSub, ciStartsWith]

/-- The empty search query matches every joined invoice row. -/
theorem invoiceRowMatches_empty (inv : Invoice) (c : Customer) :
    invoiceRowMatches "" inv c = true := by
  have h : ∀ s : String, ilike s ("%%" : String) = true := fun s => by
    rw [show ("%%" : String) = "%" ++ "" ++ "%" from rfl, ilike_pct_wrap s "" (by decide)]
    exact ciHasSub_nil s.data
  simp [invoiceRowMatches, h]

/-- Under referential integrity with unique customer ids, the inner join
keeps exactly one row per invoice. -/
theorem joinRows_length (cs : List Customer) :
    ∀ invs : List Invoice,
      invs.all
        (fun inv => (cs.filter (fun c => c.id == inv.customer_id)).length == 1) = true →
      (joinRows cs invs).length = invs.length := by
  intro invs
  induction invs with
  | nil => intro _; rfl
  | cons inv rest ih =>
    intro h
    rw [List.all_cons, Bool.and_eq_true] at h
    have h1 : (cs.filter (fun c => c.id == inv.customer_id)).length = 1 := by
      simpa using h.1
    simp [joinRows, List.length_append, List.length_map, h1, ih h.2, Nat.add_comm]

/-- With the empty query and a well-formed database, the invoice count of
`fetchInvoicesPages` is the number of invoice rows. -/
theorem invoicesMatchCount_empty (db : Database) (h : dbWF db = true) :
    invoicesMatchCount db "" = db.invoices.length := by
  unfold invoicesMatchCount
  rw [List.filter_eq_self.mpr (fun p _ => invoiceRowMatches_empty p.1 p.2)]
  exact joinRows_length db.customers db.invoices h

/-- Starting from a memoized client, a trace of `getSql` calls constructs
nothing, keeps the state, and answers the client exactly when
`POSTGRES_URL` is truthy. -/
theorem getSqlTrace_from_some (c : Client) :
    ∀ envs : List Env,
      getSqlTrace envs (some c) =
        { results := envs.map (fun e => if envTruthy e.POSTGRES_URL then some c else none)
          finalState := some c
          constructions := 0 } := by
  intro envs
  induction envs with
  | nil => rfl
  | cons e es ih =>
    cases h : envTruthy e.POSTGRES_URL <;> simp [getSqlTrace, getSql, h, ih]

/-- Any trace of `getSql` calls constructs at most one client. -/
theorem getSqlTrace_constructions_le_one (envs : List Env) (st : Option Client) :
    (getSqlTrace envs st).constructions ≤ 1 := by
  induction envs generalizing st with
  | nil => exact Nat.zero_le 1
  | cons e es ih =>
    cases st with
    | some c => simp [getSqlTrace_from_some c (e :: es)]
    | none =>
      cases h : envTruthy e.POSTGRES_URL with
      | false => simpa [getSqlTrace, getSql, h] using ih none
      | true => simp [getSqlTrace, getSql, h, getSqlTrace_from_some]

/-! ### Concrete example data for witnesses and counterexamples -/

/-- An environment with a truthy `POSTGRES_URL`. -/
def exEnv : Env := { POSTGRES_URL := some "postgres://localhost:5432/dashboard" }

/-- An environment with no variables set (a build-time context). -/
def emptyEnv : Env := {}

/-- An environment with only `DATABASE_URL` set. -/
def envDbOnly : Env := { DATABASE_URL := some "postgres://localhost:5432/dashboard" }

/-- A sample customer row. -/
def exCust : Customer :=
  { id := "c1", name := "Acme", email := "acme@example.com", image_url := "/a.png" }

/-- A sample invoice row with amount 12345 cents. -/
def exInv : Invoice :=
  { id := "i1", customer_id := "c1", amount := 12345, status := "pending",
    date := "2024-01-01" }

/-- A sample database with one customer and one invoice. -/
def exDb : Database := { invoices := [exInv], customers := [exCust], revenue := [] }

/-- A sample constructed client. -/
def exClient : Client := { url := "postgres://localhost:5432/dashboard", ssl := "require" }

/-! ### The claims -/

/-- C1: every query function returns its documented safe default both when
no client is available and when the underlying query fails, and the error
fallback equals the no-client fallback; being total Lean functions, none of
them propagates a database error to the caller. -/
theorem query_functions_safe_defaults (env : Env) (st : Option Client)
    (w : DbWorld) (q : String) (p : Int) (id : String)
    (h : (getSql env st).client = none ∨ w = DbWorld.down) :
    fetchRevenue env st w = SAFE_EMPTY_REVENUE ∧
    fetchLatestInvoices env st w = [] ∧
    fetchCardData env st w = SAFE_CARD_DATA ∧
    fetchFilteredInvoices env st q p w = [] ∧
    fetchInvoicesPages env st q w = 0 ∧
    fetchInvoiceById env st id w = none ∧
    fetchCustomers env st w = [] ∧
    fetchFilteredCustomers env st q w = [] := by
  rcases h with h | h
  · simp [fetchRevenue, fetchLatestInvoices, fetchCardData, fetchFilteredInvoices,
      fetchInvoicesPages, fetchInvoiceById, fetchCustomers, fetchFilteredCustomers, h]
  · subst h
    cases hc : (getSql env st).client <;>
      simp [fetchRevenue, fetchLatestInvoices, fetchCardData, fetchFilteredInvoices,
        fetchInvoicesPages, fetchInvoiceById, fetchCustomers, fetchFilteredCustomers, hc]

/-- Witness for C1 at a concrete build-time environment with the database
up: every function still returns its safe default. -/
theorem query_functions_safe_defaults_witness :
    ((getSql emptyEnv none).client = none ∨ DbWorld.up exDb = DbWorld.down) ∧
    (fetchRevenue emptyEnv none (DbWorld.up exDb) = SAFE_EMPTY_REVENUE ∧
     fetchLatestInvoices emptyEnv none (DbWorld.up exDb) = [] ∧
     fetchCardData emptyEnv none (DbWorld.up exDb) = SAFE_CARD_DATA ∧
     fetchFilteredInvoices emptyEnv none "x" 2 (DbWorld.up exDb) = [] ∧
     fetchInvoicesPages emptyEnv none "x" (DbWorld.up exDb) = 0 ∧
     fetchInvoiceById emptyEnv none "i1" (DbWorld.up exDb) = none ∧
     fetchCustomers emptyEnv none (DbWorld.up exDb) = [] ∧
     fetchFilteredCustomers emptyEnv none "x" (DbWorld.up exDb) = []) :=
  ⟨Or.inl (by decide),
   query_functions_safe_defaults emptyEnv none (DbWorld.up exDb) "x" 2 "i1"
     (Or.inl (by decide))⟩

/-- C2 counterexample: in an environment where `DATABASE_URL` is set and
`POSTGRES_URL` is not, the connection holder `getSql` returns no client,
contradicting the claim that it would construct and return a client. -/
theorem getSql_ignores_DATABASE_URL :
    envTruthy envDbOnly.DATABASE_URL = true ∧
    envDbOnly.POSTGRES_URL = none ∧
    (getSql envDbOnly none).client = none := by decide

/-- C2 (amended): the connection holder returns "no client" exactly when
`POSTGRES_URL` is absent or empty — `DATABASE_URL` does not satisfy the
holder's check; only the configuration resolver `getDatabaseConfig` in
`database.ts` accepts either variable. -/
theorem getSql_noclient_iff (env : Env) (st : Option Client) :
    ((getSql env st).client.isNone ↔ envTruthy env.POSTGRES_URL = false) ∧
    ((getDatabaseConfig env).toOption.isSome ↔
      (envTruthy env.POSTGRES_URL = true ∨ envTruthy env.DATABASE_URL = true)) := by
  constructor
  · cases h : envTruthy env.POSTGRES_URL <;> cases st <;> simp [getSql, h]
  · cases hp : envTruthy env.POSTGRES_URL <;> cases hd : envTruthy env.DATABASE_URL <;>
      simp [getDatabaseConfig, hp, hd, Except.toOption]

/-- C3: on a well-formed database whose invoices table holds
`total_invoice_count` rows, `fetchInvoicesPages` with the empty query
returns `ceil(total_invoice_count / 6)`. -/
theorem fetchInvoicesPages_empty_query (env : Env) (st : Option Client) (db : Database)
    (h1 : envTruthy env.POSTGRES_URL = true) (h2 : dbWF db = true) :
    fetchInvoicesPages env st "" (DbWorld.up db) =
      Int.ceil ((db.invoices.length : ℚ) / 6) := by
  have hc := getSql_client_some env st h1
  simp [fetchInvoicesPages, hc, invoicesMatchCount_empty db h2, ITEMS_PER_PAGE]

/-- Witness for C3 at a concrete database. -/
theorem fetchInvoicesPages_empty_query_witness :
    envTruthy exEnv.POSTGRES_URL = true ∧ dbWF exDb = true ∧
    fetchInvoicesPages exEnv none "" (DbWorld.up exDb) =
      Int.ceil ((exDb.invoices.length : ℚ) / 6) :=
  ⟨by decide, by decide,
   fetchInvoicesPages_empty_query exEnv none exDb (by decide) (by decide)⟩

/-- C5: `fetchFilteredInvoices` returns at most 6 invoices for every input,
slices the filtered rows with limit 6 and offset `(p-1)*6`, and
`fetchInvoicesPages` computes `ceil(matching_count / 6)` over the very list
of rows that `fetchFilteredInvoices` paginates (the shared filter
predicate `invoiceRowMatches`). -/
theorem fetchFilteredInvoices_pagination (env : Env) (st : Option Client)
    (q : String) (p : Int) (w : DbWorld) (db : Database)
    (h1 : envTruthy env.POSTGRES_URL = true) (h2 : 1 ≤ p) :
    (fetchFilteredInvoices env st q p w).length ≤ 6 ∧
    fetchFilteredInvoices env st q p (DbWorld.up db) =
      (((filteredInvoiceRows db q).drop ((p - 1) * 6).toNat).take 6).map
        invoiceTableShape ∧
    fetchInvoicesPages env st q (DbWorld.up db) =
      Int.ceil (((filteredInvoiceRows db q).length : ℚ) / 6) := by
  have hc := getSql_client_some env st h1
  refine ⟨?_, ?_, ?_⟩
  · cases hcl : (getSql env st).client with
    | none => simp [fetchFilteredInvoices, hcl]
    | some c =>
      cases w with
      | down => simp [fetchFilteredInvoices, hcl]
      | up db2 =>
        simp only [fetchFilteredInvoices, hcl]
        split
        · simp
        · rw [List.length_map, List.length_take]
          exact le_trans (min_le_left _ _) (le_refl _)
  · simp only [fetchFilteredInvoices, hc]
    have hoff : ¬((p - 1) * ((ITEMS_PER_PAGE : Nat) : Int) < 0) := by
      simp only [ITEMS_PER_PAGE]
      push_cast
      omega
    rw [if_neg hoff]
    simp [ITEMS_PER_PAGE]
  · have hlen : (filteredInvoiceRows db q).length = invoicesMatchCount db q :=
      (List.perm_insertionSort dateDesc _).length_eq
    simp [fetchInvoicesPages, hc, hlen, ITEMS_PER_PAGE]

/-- Witness for C5 at concrete inputs. -/
theorem fetchFilteredInvoices_pagination_witness :
    envTruthy exEnv.POSTGRES_URL = true ∧ (1 : Int) ≤ 1 ∧
    ((fetchFilteredInvoices exEnv none "a" 1 (DbWorld.up exDb)).length ≤ 6 ∧
     fetchFilteredInvoices exEnv none "a" 1 (DbWorld.up exDb) =
       (((filteredInvoiceRows exDb "a").drop (((1 : Int) - 1) * 6).toNat).take 6).map
         invoiceTableShape ∧
     fetchInvoicesPages exEnv none "a" (DbWorld.up exDb) =
       Int.ceil (((filteredInvoiceRows exDb "a").length : ℚ) / 6)) :=
  ⟨by decide, by decide,
   fetchFilteredInvoices_pagination exEnv none "a" 1 (DbWorld.up exDb) exDb
     (by decide) (by decide)⟩

/-- C6 counterexample: the query `"_"` is selected by the code's `ILIKE`
filter on a row none of whose fields contain `"_"` as a substring — `_` is
an `ILIKE` single-character wildcard, so the filter is not the
case-insensitive substring relation for every query string. -/
theorem invoice_filter_wildcard_divergence :
    invoiceRowMatches "_" exInv exCust = true ∧
    specInvoiceRowMatches "_" exInv exCust = false := by decide

/-- C6 (amended): for every query string free of the `ILIKE` wildcard and
escape characters (`%`, `_`, `\`), the invoice filter selects exactly the
rows where the query is a case-insensitive substring of customer name,
customer email, amount cast to text, date cast to text, or status; query
strings containing those characters are interpreted as `ILIKE` patterns
instead. -/
theorem invoice_filter_plain_substring (q : String) (inv : Invoice) (c : Customer)
    (db : Database) (h : plainQuery q = true) :
    invoiceRowMatches q inv c = specInvoiceRowMatches q inv c ∧
    (joinedInvoices db).filter (fun pr => invoiceRowMatches q pr.1 pr.2) =
      (joinedInvoices db).filter (fun pr => specInvoiceRowMatches q pr.1 pr.2) := by
  have hrow : ∀ (i : Invoice) (cu : Customer),
      invoiceRowMatches q i cu = specInvoiceRowMatches q i cu := by
    intro i cu
    simp only [invoiceRowMatches, specInvoiceRowMatches, ilike_pct_wrap _ q h]
  exact ⟨hrow inv c, List.filter_congr (fun pr _ => by rw [hrow pr.1 pr.2])⟩

/-- Witness for the amended C6 at a concrete plain query. -/
theorem invoice_filter_plain_substring_witness :
    plainQuery "paid" = true ∧
    (invoiceRowMatches "paid" exInv exCust = specInvoiceRowMatches "paid" exInv exCust ∧
     (joinedInvoices exDb).filter (fun pr => invoiceRowMatches "paid" pr.1 pr.2) =
       (joinedInvoices exDb).filter (fun pr => specInvoiceRowMatches "paid" pr.1 pr.2)) :=
  ⟨by decide, invoice_filter_plain_substring "paid" exInv exCust exDb (by decide)⟩

/-- C7: when the stored row with the requested id has integer cent amount
`a`, `fetchInvoiceById` returns that row with amount `a / 100` in decimal
currency units (JavaScript's exact decimal division embedded in `ℚ`). -/
theorem fetchInvoiceById_cents_to_currency (env : Env) (st : Option Client)
    (db : Database) (id : String) (inv : Invoice)
    (h1 : envTruthy env.POSTGRES_URL = true)
    (h2 : (db.invoices.filter (fun i => i.id == id)).head? = some inv) :
    fetchInvoiceById env st id (DbWorld.up db) =
      some { id := inv.id, customer_id := inv.customer_id,
             amount := (inv.amount : ℚ) / 100, status := inv.status } := by
  have hc := getSql_client_some env st h1
  simp only [fetchInvoiceById, hc, List.head?_map, h2, Option.map_some']

/-- Witness for C7: the stored amount 12345 yields 12345/100 = 123.45. -/
theorem fetchInvoiceById_cents_to_currency_witness :
    envTruthy exEnv.POSTGRES_URL = true ∧
    (exDb.invoices.filter (fun i => i.id == "i1")).head? = some exInv ∧
    fetchInvoiceById exEnv none "i1" (DbWorld.up exDb) =
      some { id := exInv.id, customer_id := exInv.customer_id,
             amount := (exInv.amount : ℚ) / 100, status := exInv.status } :=
  ⟨by decide, by decide,
   fetchInvoiceById_cents_to_currency exEnv none exDb "i1" exInv (by decide) (by decide)⟩

/-- C8: a process-long trace of `getSql` calls constructs at most one
client, and once the module state holds a client every later call (with
`POSTGRES_URL` still set) returns that same client handle and constructs
nothing. -/
theorem getSql_constructs_once (envs : List Env) (st : Option Client) (c : Client)
    (h : ∀ e ∈ envs, envTruthy e.POSTGRES_URL = true) :
    (getSqlTrace envs st).constructions ≤ 1 ∧
    (getSqlTrace envs (some c)).constructions = 0 ∧
    (getSqlTrace envs (some c)).results = envs.map (fun _ => some c) := by
  refine ⟨getSqlTrace_constructions_le_one envs st, ?_, ?_⟩
  · rw [getSqlTrace_from_some c envs]
  · rw [getSqlTrace_from_some c envs]
    exact List.map_congr_left (fun e he => by rw [h e he]; rfl)

/-- Witness for C8 at a concrete two-call trace. -/
theorem getSql_constructs_once_witness :
    (∀ e ∈ [exEnv, exEnv], envTruthy e.POSTGRES_URL = true) ∧
    ((getSqlTrace [exEnv, exEnv] none).constructions ≤ 1 ∧
     (getSqlTrace [exEnv, exEnv] (some exClient)).constructions = 0 ∧
     (getSqlTrace [exEnv, exEnv] (some exClient)).results =
       [exEnv, exEnv].map (fun _ => some exClient)) :=
  ⟨by decide, getSql_constructs_once [exEnv, exEnv] none exClient (by decide)⟩

/-- C9: `checkDatabaseHealth` is total over liveness-query outcomes — it
returns `true` on success and `false` on any error, never throwing — so
for failures arising from the liveness query the health route only ever
answers 200 or 503, and its 500 branch is unreachable. -/
theorem checkDatabaseHealth_total (now : String) (o : LivenessOutcome) :
    checkDatabaseHealth LivenessOutcome.ok = true ∧
    (∀ m, checkDatabaseHealth (LivenessOutcome.err m) = false) ∧
    (((GET now (Except.ok (checkDatabaseHealth o))).httpStatus = 200 ∧
      (GET now (Except.ok (checkDatabaseHealth o))).status = "healthy") ∨
     ((GET now (Except.ok (checkDatabaseHealth o))).httpStatus = 503 ∧
      (GET now (Except.ok (checkDatabaseHealth o))).status = "error")) := by
  refine ⟨rfl, fun m => rfl, ?_⟩
  cases o with
  | ok => exact Or.inl ⟨rfl, rfl⟩
  | err m => exact Or.inr ⟨rfl, rfl⟩

/-- C4: the health endpoint returns 200 with status "healthy" when the
liveness check succeeds, 503 with status "error" when the database is
detected unhealthy, 500 when an unexpected exception occurs, and every
response carries the request timestamp. -/
theorem health_route_contract (now : String) (e : String) :
    GET now (Except.ok true) =
      { httpStatus := 200, status := "healthy", message := "All systems operational",
        timestamp := now, database := some "connected" } ∧
    GET now (Except.ok false) =
      { httpStatus := 503, status := "error", message := "Database connection failed",
        timestamp := now } ∧
    (GET now (Except.error e)).httpStatus = 500 ∧
    (GET now (Except.error e)).status = "error" ∧
    (GET now (Except.error e)).errMsg = some e ∧
    (∀ h : Except String Bool, (GET now h).timestamp = now) := by
  refine ⟨rfl, rfl, rfl, rfl, rfl, ?_⟩
  intro h
  cases h with
  | ok b => cases b <;> rfl
  | error e2 => rfl

/-- C10: `fetchLatestInvoices` returns at most 5 invoices, drawn from the
joined rows in descending invoice-date order, each with its amount
replaced by its currency-formatted string (`latestShape` applies
`formatCurrency`). -/
theorem fetchLatestInvoices_latest_five (env : Env) (st : Option Client)
    (w : DbWorld) (db : Database) (h : envTruthy env.POSTGRES_URL = true) :
    (fetchLatestInvoices env st w).length ≤ 5 ∧
    List.Sorted dateDesc (latestInvoiceRows db) ∧
    fetchLatestInvoices env st (DbWorld.up db) = (latestInvoiceRows db).map latestShape := by
  have hc := getSql_client_some env st h
  refine ⟨?_, ?_, ?_⟩
  · cases hcl : (getSql env st).client with
    | none => simp [fetchLatestInvoices, hcl]
    | some cc =>
      cases w with
      | down => simp [fetchLatestInvoices, hcl]
      | up db2 =>
        simp only [fetchLatestInvoices, hcl, List.length_map, latestInvoiceRows]
        rw [List.length_take]
        exact min_le_left _ _
  · exact List.Pairwise.sublist (List.take_sublist 5 _)
      (List.sorted_insertionSort dateDesc (joinedInvoices db))
  · simp [fetchLatestInvoices, hc]

/-- Witness for C10 at a concrete database. -/
theorem fetchLatestInvoices_latest_five_witness :
    envTruthy exEnv.POSTGRES_URL = true ∧
    ((fetchLatestInvoices exEnv none (DbWorld.up exDb)).length ≤ 5 ∧
     List.Sorted dateDesc (latestInvoiceRows exDb) ∧
     fetchLatestInvoices exEnv none (DbWorld.up exDb) =
       (latestInvoiceRows exDb).map latestShape) :=
  ⟨by decide,
   fetchLatestInvoices_latest_five exEnv none (DbWorld.up exDb) exDb (by decide)⟩

end Dashboard
